import Mathlib

/-!
# The shared counter and its transports

A shallow embedding of `server/counter.go`, `server/httphandler.go`,
`server/grpc.go` and the response decoding of `client/client.go`.

* `uint64` values are natural numbers below `2 ^ 64`; the atomic addition wraps
  modulo `2 ^ 64`.
* Go strings and byte slices are lists of bytes.
* A Go `(value, error)` result is a pair whose second component is an `Option`.
* Handlers are run on one request at a time: state is passed explicitly.
-/

set_option autoImplicit false

namespace Saga

/-! ## Bytes and text -/

/-- One byte of a Go string or byte slice. -/
abbrev Byte := Fin 256

/-- The bytes of an ASCII string literal of the source. -/
def ascii (s : String) : List Byte :=
  s.toList.map (fun c => ⟨c.toNat % 256, Nat.mod_lt _ (by decide)⟩)

/-- The modulus of `uint64` arithmetic. -/
def uint64Size : Nat := 2 ^ 64

/-- Go `errors.New(text)`: an error value that carries its message. -/
structure errorString where
  s : List Byte
  deriving DecidableEq, Repr

/-- Method `Error()` of an `errors.New` value. -/
def errorString.Error (e : errorString) : List Byte := e.s

/-! ## server/counter.go -/

/-- Go `var OverflowError = errors.New("overflow")`. -/
def OverflowError : errorString := ⟨ascii "overflow"⟩

/-- Go `type Counter struct { counter atomic.Uint64 }`. -/
structure Counter where
  counter : Nat
  deriving DecidableEq, Repr

/-- Go `NewCounter`: the zero value of the struct. -/
def NewCounter : Counter := ⟨0⟩

/-- Go `atomic.Uint64.Add`: adds with wraparound, stores and returns the new value. -/
def atomicAdd (s : Counter) (delta : Nat) : Nat × Counter :=
  let v := (s.counter + delta) % uint64Size
  (v, ⟨v⟩)

/-- Go `Counter.Bump`: the returned pair `(uint64, error)` and the counter afterwards. -/
def Counter.Bump (s : Counter) (amount : Nat) : (Nat × Option errorString) × Counter :=
  let (result, s1) := atomicAdd s amount
  if result < amount then
    ((0, some OverflowError), s1)
  else
    ((result, none), s1)

/-! ## strconv (Go standard library), at base 10 and bit size 64 -/

/-- Go `strconv.ErrSyntax`. -/
def ErrSyntax : errorString := ⟨ascii "invalid syntax"⟩

/-- Go `strconv.ErrRange`. -/
def ErrRange : errorString := ⟨ascii "value out of range"⟩

/-- Go `strconv.NumError`. -/
structure NumError where
  Func : List Byte
  Num : List Byte
  Err : errorString
  deriving DecidableEq, Repr

/-- Standard-library text functions that are not embedded: `strconv.Quote`, and the
Unicode-aware `strings.TrimFunc(·, unicode.IsSpace)` and
`strings.TrimRightFunc(·, unicode.IsSpace)` that `strings.TrimSpace` falls back to
on a non-ASCII byte. Every result below holds for all values of these fields. -/
structure TextLib where
  Quote : List Byte → List Byte
  TrimFunc : List Byte → List Byte
  TrimRightFunc : List Byte → List Byte

/-- Method `Error()` of `*strconv.NumError`. -/
def NumError.Error (L : TextLib) (e : NumError) : List Byte :=
  ascii "strconv." ++ e.Func ++ ascii ": parsing " ++ L.Quote e.Num ++ ascii ": "
    ++ e.Err.Error

/-- Go `syntaxError(fnParseUint, s0)`. -/
def syntaxError (s0 : List Byte) : NumError := ⟨ascii "ParseUint", s0, ErrSyntax⟩

/-- Go `rangeError(fnParseUint, s0)`. -/
def rangeError (s0 : List Byte) : NumError := ⟨ascii "ParseUint", s0, ErrRange⟩

/-- Go `maxUint64`, which is also `maxVal` at bit size 64. -/
def maxUint64 : Nat := uint64Size - 1

/-- Go `cutoff = maxUint64/10 + 1`: the least `n` with `n * 10 > maxUint64`. -/
def cutoff : Nat := maxUint64 / 10 + 1

/-- Go `lower(c) = c | ('x' - 'X')`. -/
def lower (c : Byte) : Nat := c.val ||| 32

/-- The digit value the loop of `ParseUint` assigns to a byte (`none`: the
`default` case of the switch, a syntax error). The `'_'` case needs base 0 and
is never taken here. -/
def digitOf (c : Byte) : Option Nat :=
  if 48 ≤ c.val ∧ c.val ≤ 57 then some (c.val - 48)
  else if 97 ≤ lower c ∧ lower c ≤ 122 then some ((lower c - 97 + 10) % 256)
  else none

/-- The `for _, c := range []byte(s)` loop of `strconv.ParseUint(s, 10, 64)`,
with `n` the accumulator and `s0` the whole input (kept for the error value). -/
def parseUintLoop (s0 : List Byte) : Nat → List Byte → Nat × Option NumError
  | n, [] => (n, none)
  | n, c :: cs =>
    match digitOf c with
    | none => (0, some (syntaxError s0))
    | some d =>
      if d ≥ 10 then (0, some (syntaxError s0))
      else if n ≥ cutoff then (maxUint64, some (rangeError s0))
      else
        let n10 := (n * 10) % uint64Size
        let n1 := (n10 + d) % uint64Size
        if n1 < n10 ∨ n1 > maxUint64 then (maxUint64, some (rangeError s0))
        else parseUintLoop s0 n1 cs

/-- Go `strconv.ParseUint(s, 10, 64)`. -/
def ParseUint (s : List Byte) : Nat × Option NumError :=
  if s = [] then (0, some (syntaxError s)) else parseUintLoop s 0 s

/-- The ASCII digit for `d % 10` (an entry of `digits` / `smallsString`). -/
def digitByte (d : Nat) : Byte := ⟨48 + d % 10, by omega⟩

/-- Go `small(i)` for `i < nSmalls = 100`: one digit below 10, else the two
characters `smallsString[i*2 : i*2+2]`. -/
def small (i : Nat) : List Byte :=
  if i < 10 then [digitByte i] else [digitByte (i / 10), digitByte (i % 10)]

/-- The last step of `formatBits` at base 10, for `us < 100`: the ones digit,
and the tens digit when `us ≥ 10`, written in front of `a`. -/
def formatBitsTail (us : Nat) (a : List Byte) : List Byte :=
  if us ≥ 10 then digitByte (us / 10) :: digitByte (us % 10) :: a
  else digitByte (us % 10) :: a

/-- The `for us >= 100` loop of `formatBits` at base 10, two digits a round,
followed by the last step. The first argument bounds the rounds; `formatBits`
passes the number itself, which is always enough. -/
def formatBitsLoop : Nat → Nat → List Byte → List Byte
  | 0, us, a => formatBitsTail us a
  | fuel + 1, us, a =>
    if us ≥ 100 then
      formatBitsLoop fuel (us / 100)
        (digitByte (us % 100 / 10) :: digitByte (us % 100 % 10) :: a)
    else formatBitsTail us a

/-- Go `formatBits(nil, u, 10, false, false)` on a 64-bit host. -/
def formatBits (u : Nat) : List Byte := formatBitsLoop u u []

/-- Go `strconv.FormatUint(i, 10)`; `fmt.Fprintf(w, "%d", i)` on a `uint64` writes
the same text. -/
def FormatUint (i : Nat) : List Byte :=
  if i < 100 then small i else formatBits i

/-! ## strings.TrimSpace -/

/-- The table `asciiSpace`: tab, newline, vertical tab, form feed, carriage
return and space. -/
def isAsciiSpace (c : Byte) : Bool :=
  c.val = 9 || c.val = 10 || c.val = 11 || c.val = 12 || c.val = 13 || c.val = 32

/-- The second loop of `strings.TrimSpace`, on the reversed rest `s[start:]`:
scans from the end; a byte `≥ utf8.RuneSelf` hands over to `TrimRightFunc`. -/
def trimSpaceStop (L : TextLib) : List Byte → List Byte
  | [] => []
  | c :: rest =>
    if c.val ≥ 128 then L.TrimRightFunc (c :: rest).reverse
    else if isAsciiSpace c then trimSpaceStop L rest
    else (c :: rest).reverse

/-- Go `strings.TrimSpace`: the first loop scans from the start; a byte
`≥ utf8.RuneSelf` hands the rest over to `TrimFunc`. -/
def TrimSpace (L : TextLib) : List Byte → List Byte
  | [] => []
  | c :: rest =>
    if c.val ≥ 128 then L.TrimFunc (c :: rest)
    else if isAsciiSpace c then TrimSpace L rest
    else trimSpaceStop L (c :: rest).reverse

/-! ## net/http: the request, the response writer, `MaxBytesReader` -/

/-- The parts of `*http.Request` (and of a fasthttp request) the handlers read:
the method, `URL.Path` and the whole body as sent by the peer. -/
structure Request where
  Method : String
  Path : String
  Body : List Byte
  deriving DecidableEq, Repr

/-- An `http.ResponseWriter` as implemented by net/http: the first `WriteHeader`
fixes the status, a `Write` before any `WriteHeader` sends 200 first. `writeErr`
is the error every `Write` reports (`none`: writes succeed). -/
structure ResponseWriter where
  writeErr : Option errorString
  wroteHeader : Bool
  status : Nat
  body : List Byte
  deriving DecidableEq, Repr

/-- The writer a handler receives: nothing sent yet, status 200 by default. -/
def ResponseWriter.fresh (writeErr : Option errorString) : ResponseWriter :=
  ⟨writeErr, false, 200, []⟩

/-- Go `w.WriteHeader(code)`; a second call is ignored. -/
def ResponseWriter.WriteHeader (w : ResponseWriter) (code : Nat) : ResponseWriter :=
  if w.wroteHeader then w else { w with wroteHeader := true, status := code }

/-- Go `w.Write(p)`: the writer afterwards and the error returned. -/
def ResponseWriter.Write (w : ResponseWriter) (p : List Byte) :
    ResponseWriter × Option errorString :=
  let w1 := w.WriteHeader 200
  match w1.writeErr with
  | some e => (w1, some e)
  | none => ({ w1 with body := w1.body ++ p }, none)

/-- Go `http.Error(w, msg, code)`: `w.WriteHeader(code)` then `fmt.Fprintln(w, msg)`. -/
def httpError (w : ResponseWriter) (msg : List Byte) (code : Nat) : ResponseWriter :=
  ((w.WriteHeader code).Write (msg ++ [10])).1

/-- Go `io.ReadAll(http.MaxBytesReader(w, body, n))`: the bytes read and the error;
more than `n` bytes give the first `n` and a `*http.MaxBytesError`. -/
def readAllMaxBytes (n : Nat) (body : List Byte) : List Byte × Option errorString :=
  if body.length > n then (body.take n, some ⟨ascii "http: request body too large"⟩)
  else (body, none)

/-! ## server/httphandler.go -/

/-- Go `type httpStringHandler struct { counter *Counter }`. -/
structure httpStringHandler where
  counter : Counter
  deriving DecidableEq, Repr

/-- Go `NewHTTPStringHandler`. -/
def NewHTTPStringHandler : httpStringHandler := ⟨NewCounter⟩

/-- Go `httpStringHandler.ServeHTTP`: the writer and the handler afterwards. -/
def httpStringHandler.ServeHTTP (L : TextLib) (h : httpStringHandler)
    (w : ResponseWriter) (r : Request) : ResponseWriter × httpStringHandler :=
  if r.Method ≠ "POST" ∨ r.Path ≠ "/counter" then
    (httpError w (ascii "only POST /counter allowed") 405, h)
  else
    match readAllMaxBytes 32 r.Body with
    | (_, some err) => (httpError w err.Error 400, h)
    | (b, none) =>
      match ParseUint b with
      | (_, some err) => (httpError w (err.Error L) 400, h)
      | (v, none) =>
        match h.counter.Bump v with
        | ((_, some err), c) => (httpError w err.Error 500, ⟨c⟩)
        | ((result, none), c) =>
          match w.Write (FormatUint result) with
          | (w1, some err) => (httpError w1 err.Error 500, ⟨c⟩)
          | (w1, none) => (w1, ⟨c⟩)

/-- The response half of `*fasthttp.RequestCtx`. -/
structure FastResponse where
  statusCode : Nat
  body : List Byte
  deriving DecidableEq, Repr

/-- A `*fasthttp.RequestCtx`: the request and the response being built. -/
structure RequestCtx where
  Request : Saga.Request
  Response : FastResponse
  deriving DecidableEq, Repr

/-- The context fasthttp hands to a handler: status 200, empty body. -/
def RequestCtx.init (r : Saga.Request) : RequestCtx := ⟨r, ⟨200, []⟩⟩

/-- Go `ctx.Error(msg, code)`: resets the response, then sets status and body. -/
def RequestCtx.Error (ctx : RequestCtx) (msg : List Byte) (code : Nat) : RequestCtx :=
  { ctx with Response := ⟨code, msg⟩ }

/-- Go `ctx.Write(p)`: appends to the response body and never fails. -/
def RequestCtx.Write (ctx : RequestCtx) (p : List Byte) :
    RequestCtx × Option errorString :=
  ({ ctx with Response := { ctx.Response with body := ctx.Response.body ++ p } }, none)

/-- Go `httpStringHandler.HandleFastHTTP`: the context and the handler afterwards.
The first `if` has no `return`: execution continues after `ctx.Error`. -/
def httpStringHandler.HandleFastHTTP (L : TextLib) (h : httpStringHandler)
    (ctx : RequestCtx) : RequestCtx × httpStringHandler :=
  let ctx0 :=
    if ctx.Request.Method ≠ "POST" ∨ ctx.Request.Path ≠ "/counter" then
      ctx.Error (ascii "only POST /counter allowed") 405
    else ctx
  match ParseUint ctx0.Request.Body with
  | (_, some err) => (ctx0.Error (err.Error L) 400, h)
  | (v, none) =>
    match h.counter.Bump v with
    | ((_, some err), c) => (ctx0.Error err.Error 500, ⟨c⟩)
    | ((result, none), c) =>
      match ctx0.Write (FormatUint result) with
      | (ctx1, some err) => (ctx1.Error err.Error 500, ⟨c⟩)
      | (ctx1, none) => (ctx1, ⟨c⟩)

/-! ## server/grpc.go -/

/-- Go `proto.BumpRequest`. -/
structure BumpRequest where
  By : Nat
  deriving DecidableEq, Repr

/-- Go `proto.BumpReply`. -/
structure BumpReply where
  Counter : Nat
  deriving DecidableEq, Repr

/-- Go `type GRPCServer struct { counter *Counter; ... }`. -/
structure GRPCServer where
  counter : Counter
  deriving DecidableEq, Repr

/-- Go `NewGRPCServer`. -/
def NewGRPCServer : GRPCServer := ⟨⟨0⟩⟩

/-- Go `GRPCServer.Bump`: the pair `(*proto.BumpReply, error)` and the server
afterwards; `none` in the first place is a nil reply. -/
def GRPCServer.Bump (g : GRPCServer) (request : BumpRequest) :
    (Option BumpReply × Option errorString) × GRPCServer :=
  match g.counter.Bump request.By with
  | ((_, some err), c) => ((none, some err), ⟨c⟩)
  | ((result, none), c) => ((some ⟨result⟩, none), ⟨c⟩)

/-! ## client/client.go -/

/-- The failures of the client after a response arrived: the two `fmt.Errorf`
wrappings of `bumpCounterHTTP` and `bumpCounterFastHTTP`. -/
inductive ClientError where
  | unexpectedStatus (code : Nat)
  | parseBody (err : NumError)
  deriving DecidableEq, Repr

/-- The request `bumpCounterHTTP` and `bumpCounterFastHTTP` build: method POST,
path `/counter`, body `strconv.FormatUint(by, 10)`. -/
def bumpRequest (amount : Nat) : Request := ⟨"POST", "/counter", FormatUint amount⟩

/-- What `bumpCounterHTTP` and `bumpCounterFastHTTP` do with the response:
check the status, then `strconv.ParseUint(strings.TrimSpace(body), 10, 64)`. -/
def decodeResponse (L : TextLib) (status : Nat) (body : List Byte) :
    Nat × Option ClientError :=
  if status ≠ 200 then (0, some (.unexpectedStatus status))
  else
    match ParseUint (TrimSpace L body) with
    | (_, some err) => (0, some (.parseBody err))
    | (ret, none) => (ret, none)

/-- One `BumpCounter` call of the client over net/http against the handler,
with a transport that delivers request and response unchanged. -/
def bumpCounterHTTP (L : TextLib) (h : httpStringHandler) (amount : Nat) :
    (Nat × Option ClientError) × httpStringHandler :=
  let (w, h1) := h.ServeHTTP L (ResponseWriter.fresh none) (bumpRequest amount)
  (decodeResponse L w.status w.body, h1)

/-- One `BumpCounter` call of the client over fasthttp against the handler. -/
def bumpCounterFastHTTP (L : TextLib) (h : httpStringHandler) (amount : Nat) :
    (Nat × Option ClientError) × httpStringHandler :=
  let (ctx, h1) := h.HandleFastHTTP L (RequestCtx.init (bumpRequest amount))
  (decodeResponse L ctx.Response.statusCode ctx.Response.body, h1)

/-- One `BumpCounter` call of the client over gRPC: `reply.Counter`, or the
server's error wrapped by "failed to send request". -/
def bumpCounterGRPC (g : GRPCServer) (amount : Nat) :
    (Nat × Option errorString) × GRPCServer :=
  match g.Bump ⟨amount⟩ with
  | ((some reply, none), g1) => ((reply.Counter, none), g1)
  | ((_, some err), g1) => ((0, some err), g1)
  | ((none, none), g1) => ((0, none), g1)

/-- Runs `ServeHTTP` on the client's request for `amount`, fresh writer, writes
succeeding: the status and body answered, and the handler afterwards. -/
def serveBump (L : TextLib) (h : httpStringHandler) (amount : Nat) :
    (Nat × List Byte) × httpStringHandler :=
  let r := h.ServeHTTP L (ResponseWriter.fresh none) (bumpRequest amount)
  ((r.1.status, r.1.body), r.2)

/-- Runs `HandleFastHTTP` on the client's request for `amount`: the status and body
answered, and the handler afterwards. -/
def fastBump (L : TextLib) (h : httpStringHandler) (amount : Nat) :
    (Nat × List Byte) × httpStringHandler :=
  let r := h.HandleFastHTTP L (RequestCtx.init (bumpRequest amount))
  ((r.1.Response.statusCode, r.1.Response.body), r.2)

/-- Runs `GRPCServer.Bump` on the request `BumpRequest{By: amount}`. -/
def grpcBump (g : GRPCServer) (amount : Nat) :
    (Option BumpReply × Option errorString) × GRPCServer :=
  g.Bump ⟨amount⟩

/-- The loop of the tests: one call after the other on the same server, the
results collected in order. -/
def bumpAll {σ ρ : Type} (call : σ → Nat → ρ × σ) : σ → List Nat → List ρ
  | _, [] => []
  | s, a :: rest => (call s a).1 :: bumpAll call (call s a).2 rest

/-! ## Reference notions used in the statements -/

/-- The running totals `acc + a₁, acc + a₁ + a₂, …` of a list of amounts. -/
def runningTotals : Nat → List Nat → List Nat
  | _, [] => []
  | acc, a :: rest => (acc + a) :: runningTotals (acc + a) rest

/-- A byte that is an ASCII decimal digit. -/
def isDigit (c : Byte) : Prop := 48 ≤ c.val ∧ c.val ≤ 57

instance (c : Byte) : Decidable (isDigit c) := by unfold isDigit; infer_instance

/-- The number a digit string denotes, read in base 10 from accumulator `n`. -/
def decimalValue (n : Nat) : List Byte → Nat
  | [] => n
  | c :: cs => decimalValue (n * 10 + (c.val - 48)) cs

/-! ## The counter -/

theorem Counter.Bump_of_lt (t a : Nat) (h : t + a < 2 ^ 64) :
    Counter.Bump ⟨t⟩ a = ((t + a, none), ⟨t + a⟩) := by
  have hm : (t + a) % 2 ^ 64 = t + a := Nat.mod_eq_of_lt h
  simp only [Counter.Bump, atomicAdd, uint64Size, hm]
  have : ¬ t + a < a := by omega
  simp [this]

theorem Counter.Bump_of_ge (t a : Nat) (ht : t < 2 ^ 64) (ha : a < 2 ^ 64)
    (h : 2 ^ 64 ≤ t + a) :
    Counter.Bump ⟨t⟩ a = ((0, some OverflowError), ⟨t + a - 2 ^ 64⟩) := by
  have hm : (t + a) % 2 ^ 64 = t + a - 2 ^ 64 := by omega
  simp only [Counter.Bump, atomicAdd, uint64Size, hm]
  have h1 : t + a - 2 ^ 64 < a := by omega
  rw [if_pos h1]

/-- C1: when `t + a ≤ 2^64 - 1`, `Bump(a)` on a counter holding `t` returns
`(t + a, nil)` and the counter then holds `t + a`, the returned value. -/
theorem C1_bump_returns_new_total (t a : Nat) (h : t + a ≤ 2 ^ 64 - 1) :
    (Counter.Bump ⟨t⟩ a).1 = (t + a, none) ∧
      (Counter.Bump ⟨t⟩ a).2.counter = t + a ∧
      (Counter.Bump ⟨t⟩ a).1.1 = (Counter.Bump ⟨t⟩ a).2.counter := by
  have h1 : t + a < 2 ^ 64 := by omega
  rw [Counter.Bump_of_lt t a h1]
  exact ⟨rfl, rfl, rfl⟩

theorem C1_bump_returns_new_total_witness :
    (Counter.Bump ⟨41⟩ 1).1 = (41 + 1, none) ∧
      (Counter.Bump ⟨41⟩ 1).2.counter = 41 + 1 ∧
      (Counter.Bump ⟨41⟩ 1).1.1 = (Counter.Bump ⟨41⟩ 1).2.counter :=
  C1_bump_returns_new_total 41 1 (by decide)

/-- C2: for unsigned 64-bit `t` and `a`, `Bump(a)` returns `OverflowError`
exactly when `t + a > 2^64 - 1`, it returns no error otherwise, and the test
`(t + a) mod 2^64 < a` is true exactly when the sum exceeds `2^64 - 1`. -/
theorem C2_overflow_iff (t a : Nat) (ht : t < 2 ^ 64) (ha : a < 2 ^ 64) :
    ((Counter.Bump ⟨t⟩ a).1.2 = some OverflowError ↔ t + a > 2 ^ 64 - 1) ∧
      ((Counter.Bump ⟨t⟩ a).1.2 = none ↔ t + a ≤ 2 ^ 64 - 1) ∧
      ((t + a) % 2 ^ 64 < a ↔ t + a > 2 ^ 64 - 1) := by
  by_cases h : t + a < 2 ^ 64
  · rw [Counter.Bump_of_lt t a h]
    have hm : (t + a) % 2 ^ 64 = t + a := Nat.mod_eq_of_lt h
    refine ⟨?_, ?_, ?_⟩
    · constructor
      · intro h1; cases h1
      · intro h1; omega
    · constructor
      · intro _; omega
      · intro _; rfl
    · rw [hm]; omega
  · have h2 : 2 ^ 64 ≤ t + a := by omega
    rw [Counter.Bump_of_ge t a ht ha h2]
    have hm : (t + a) % 2 ^ 64 = t + a - 2 ^ 64 := by omega
    refine ⟨?_, ?_, ?_⟩
    · constructor
      · intro _; omega
      · intro _; rfl
    · constructor
      · intro h1; cases h1
      · intro h1; omega
    · rw [hm]; omega

theorem C2_overflow_iff_witness :
    ((Counter.Bump ⟨2 ^ 64 - 1⟩ 1).1.2 = some OverflowError ↔ 2 ^ 64 - 1 + 1 > 2 ^ 64 - 1) ∧
      ((Counter.Bump ⟨2 ^ 64 - 1⟩ 1).1.2 = none ↔ 2 ^ 64 - 1 + 1 ≤ 2 ^ 64 - 1) ∧
      ((2 ^ 64 - 1 + 1) % 2 ^ 64 < 1 ↔ 2 ^ 64 - 1 + 1 > 2 ^ 64 - 1) :=
  C2_overflow_iff (2 ^ 64 - 1) 1 (by decide) (by decide)

/-- C3, as stated, fails: a counter holding `2^64 - 1` bumped by 1 returns
`OverflowError` and then holds 0, which is below `2^64 - 1`. -/
theorem C3_total_can_decrease :
    (2 ^ 64 - 1 < 2 ^ 64 ∧ 1 < 2 ^ 64) ∧
      (Counter.Bump ⟨2 ^ 64 - 1⟩ 1).1.2 = some OverflowError ∧
      ¬ ((Counter.Bump ⟨2 ^ 64 - 1⟩ 1).2.counter ≥ 2 ^ 64 - 1) := by
  decide

/-- C3, amended: for unsigned 64-bit `t` and `a`, the total after `Bump(a)` is
at least `t` exactly when `t + a ≤ 2^64 - 1`; when the sum is larger the call
returns `OverflowError` and leaves the wrapped total, which is below `t`. -/
theorem C3_total_monotone_iff_no_overflow (t a : Nat) (ht : t < 2 ^ 64) (ha : a < 2 ^ 64) :
    ((Counter.Bump ⟨t⟩ a).2.counter ≥ t ↔ t + a ≤ 2 ^ 64 - 1) ∧
      (t + a > 2 ^ 64 - 1 →
        (Counter.Bump ⟨t⟩ a).1.2 = some OverflowError ∧
          (Counter.Bump ⟨t⟩ a).2.counter = (t + a) % 2 ^ 64 ∧
          (Counter.Bump ⟨t⟩ a).2.counter < t) := by
  by_cases h : t + a < 2 ^ 64
  · rw [Counter.Bump_of_lt t a h]
    refine ⟨?_, ?_⟩
    · constructor
      · intro _; omega
      · intro _; show t + a ≥ t; omega
    · intro h1; omega
  · have h2 : 2 ^ 64 ≤ t + a := by omega
    rw [Counter.Bump_of_ge t a ht ha h2]
    have hm : (t + a) % 2 ^ 64 = t + a - 2 ^ 64 := by omega
    refine ⟨?_, ?_⟩
    · constructor
      · intro h1
        have h3 : t + a - 2 ^ 64 ≥ t := h1
        omega
      · intro h1; omega
    · intro _
      refine ⟨rfl, ?_, ?_⟩
      · show t + a - 2 ^ 64 = (t + a) % 2 ^ 64
        omega
      · show t + a - 2 ^ 64 < t
        omega

theorem C3_total_monotone_iff_no_overflow_witness :
    ((Counter.Bump ⟨5⟩ 3).2.counter ≥ 5 ↔ 5 + 3 ≤ 2 ^ 64 - 1) ∧
      (5 + 3 > 2 ^ 64 - 1 →
        (Counter.Bump ⟨5⟩ 3).1.2 = some OverflowError ∧
          (Counter.Bump ⟨5⟩ 3).2.counter = (5 + 3) % 2 ^ 64 ∧
          (Counter.Bump ⟨5⟩ 3).2.counter < 5) :=
  C3_total_monotone_iff_no_overflow 5 3 (by decide) (by decide)

/-! ## strconv: parsing -/

theorem digitOf_of_isDigit (c : Byte) (h : isDigit c) : digitOf c = some (c.val - 48) := by
  unfold isDigit at h
  simp [digitOf, h]

theorem digitOf_of_not_isDigit (c : Byte) (h : ¬ isDigit c) :
    digitOf c = none ∨ ∃ d, digitOf c = some d ∧ d ≥ 10 := by
  unfold isDigit at h
  unfold digitOf
  rw [if_neg h]
  by_cases hl : 97 ≤ lower c ∧ lower c ≤ 122
  · rw [if_pos hl]
    right
    have hge : (lower c - 97 + 10) % 256 ≥ 10 := by
      generalize lower c = x at hl
      omega
    exact ⟨(lower c - 97 + 10) % 256, rfl, hge⟩
  · rw [if_neg hl]
    left
    rfl

theorem decimalValue_cons (n : Nat) (c : Byte) (cs : List Byte) :
    decimalValue n (c :: cs) = decimalValue (n * 10 + (c.val - 48)) cs := rfl

theorem le_decimalValue (cs : List Byte) (n : Nat) : n ≤ decimalValue n cs := by
  induction cs generalizing n with
  | nil => exact Nat.le_refl _
  | cons c cs ih =>
    have h1 := ih (n * 10 + (c.val - 48))
    rw [decimalValue_cons]
    omega

theorem parseUintLoop_cons_digit (s0 cs : List Byte) (n : Nat) (c : Byte) (hc : isDigit c) :
    parseUintLoop s0 n (c :: cs) =
      if n ≥ cutoff then (maxUint64, some (rangeError s0))
      else if (n * 10 % uint64Size + (c.val - 48)) % uint64Size < n * 10 % uint64Size ∨
          (n * 10 % uint64Size + (c.val - 48)) % uint64Size > maxUint64 then
        (maxUint64, some (rangeError s0))
      else parseUintLoop s0 ((n * 10 % uint64Size + (c.val - 48)) % uint64Size) cs := by
  have hc2 := hc
  unfold isDigit at hc2
  have hd10 : ¬ (c.val - 48 ≥ 10) := by omega
  rw [parseUintLoop, digitOf_of_isDigit c hc]
  simp only []
  rw [if_neg hd10]

/-- On a string of digits the loop of `ParseUint` returns the number denoted,
or the range error when that number does not fit in 64 bits. -/
theorem parseUintLoop_digits (s0 cs : List Byte) (n : Nat) (hn : n < 2 ^ 64)
    (hd : ∀ c ∈ cs, isDigit c) :
    parseUintLoop s0 n cs =
      if decimalValue n cs < 2 ^ 64 then (decimalValue n cs, none)
      else (maxUint64, some (rangeError s0)) := by
  induction cs generalizing n with
  | nil =>
    have h1 : decimalValue n [] = n := rfl
    have h2 : parseUintLoop s0 n [] = (n, none) := rfl
    rw [h1, h2, if_pos hn]
  | cons c cs ih =>
    have hc : isDigit c := hd c (List.mem_cons_self _ _)
    have hcs : ∀ x ∈ cs, isDigit x := fun x hx => hd x (List.mem_cons_of_mem _ hx)
    have hc2 := hc
    unfold isDigit at hc2
    have hmono := le_decimalValue cs (n * 10 + (c.val - 48))
    rw [parseUintLoop_cons_digit s0 cs n c hc, decimalValue_cons]
    by_cases hcut : n ≥ cutoff
    · rw [if_pos hcut]
      have : ¬ decimalValue (n * 10 + (c.val - 48)) cs < 2 ^ 64 := by
        simp only [cutoff, maxUint64, uint64Size] at hcut
        omega
      rw [if_neg this]
    · rw [if_neg hcut]
      have hlt : n * 10 < 2 ^ 64 := by
        simp only [cutoff, maxUint64, uint64Size] at hcut
        omega
      have hm1 : n * 10 % uint64Size = n * 10 := Nat.mod_eq_of_lt hlt
      simp only [hm1]
      by_cases hov : n * 10 + (c.val - 48) < 2 ^ 64
      · have hm2 : (n * 10 + (c.val - 48)) % uint64Size = n * 10 + (c.val - 48) :=
          Nat.mod_eq_of_lt hov
        have hno : ¬ (n * 10 + (c.val - 48) < n * 10 ∨ n * 10 + (c.val - 48) > maxUint64) := by
          simp only [maxUint64, uint64Size]
          omega
        simp only [hm2]
        rw [if_neg hno]
        exact ih _ hov hcs
      · have hm2 : (n * 10 + (c.val - 48)) % uint64Size = n * 10 + (c.val - 48) - 2 ^ 64 := by
          simp only [uint64Size]
          omega
        have hyes : n * 10 + (c.val - 48) - 2 ^ 64 < n * 10 ∨
            n * 10 + (c.val - 48) - 2 ^ 64 > maxUint64 := by
          left
          omega
        simp only [hm2]
        rw [if_pos hyes]
        have : ¬ decimalValue (n * 10 + (c.val - 48)) cs < 2 ^ 64 := by omega
        rw [if_neg this]

/-- A byte that is not a digit makes the loop of `ParseUint` fail. -/
theorem parseUintLoop_not_digit (s0 cs : List Byte) (n : Nat)
    (hx : ∃ c ∈ cs, ¬ isDigit c) : (parseUintLoop s0 n cs).2 ≠ none := by
  induction cs generalizing n with
  | nil =>
    obtain ⟨c, hc, _⟩ := hx
    cases hc
  | cons c cs ih =>
    by_cases hc : isDigit c
    · have hrest : ∃ x ∈ cs, ¬ isDigit x := by
        obtain ⟨x, hx1, hx2⟩ := hx
        rcases List.mem_cons.mp hx1 with h | h
        · subst h; exact absurd hc hx2
        · exact ⟨x, h, hx2⟩
      rw [parseUintLoop_cons_digit s0 cs n c hc]
      split
      · simp
      · split
        · simp
        · exact ih _ hrest
    · rcases digitOf_of_not_isDigit c hc with h | ⟨d, h, hd⟩
      · simp [parseUintLoop, h]
      · simp [parseUintLoop, h, hd]

/-- The function `ParseUint` succeeds exactly on a non-empty string of decimal digits whose
value fits in 64 bits, and then returns that value. -/
theorem ParseUint_eq_none_iff (s : List Byte) :
    (ParseUint s).2 = none ↔
      s ≠ [] ∧ (∀ c ∈ s, isDigit c) ∧ decimalValue 0 s < 2 ^ 64 := by
  by_cases he : s = []
  · subst he
    simp [ParseUint]
  · by_cases hd : ∀ c ∈ s, isDigit c
    · simp only [ParseUint, if_neg he, parseUintLoop_digits s s 0 (by decide) hd]
      by_cases hv : decimalValue 0 s < 2 ^ 64
      · rw [if_pos hv]
        simp only [true_iff]
        exact ⟨he, hd, hv⟩
      · rw [if_neg hv]
        constructor
        · intro h; cases h
        · intro h; exact absurd h.2.2 hv
    · have hx : ∃ c ∈ s, ¬ isDigit c := by
        by_contra hcon
        apply hd
        intro c hc
        by_contra hcd
        exact hcon ⟨c, hc, hcd⟩
      have := parseUintLoop_not_digit s s 0 hx
      simp only [ParseUint, if_neg he]
      constructor
      · intro h; exact absurd h this
      · intro h; exact absurd h.2.1 hd

theorem ParseUint_of_digits (s : List Byte) (he : s ≠ []) (hd : ∀ c ∈ s, isDigit c)
    (hv : decimalValue 0 s < 2 ^ 64) : ParseUint s = (decimalValue 0 s, none) := by
  simp only [ParseUint, if_neg he, parseUintLoop_digits s s 0 (by decide) hd]
  rw [if_pos hv]

/-! ## strconv: formatting -/

theorem digitByte_val (d : Nat) : (digitByte d).val = 48 + d % 10 := rfl

theorem isDigit_digitByte (d : Nat) : isDigit (digitByte d) := by
  unfold isDigit
  rw [digitByte_val]
  omega

theorem decimalValue_digitByte (n d : Nat) (cs : List Byte) :
    decimalValue n (digitByte d :: cs) = decimalValue (n * 10 + d % 10) cs := by
  rw [decimalValue_cons, digitByte_val]
  congr 1
  omega

theorem formatBitsTail_digits (us : Nat) (a : List Byte) (ha : ∀ c ∈ a, isDigit c) :
    ∀ c ∈ formatBitsTail us a, isDigit c := by
  intro c hc
  unfold formatBitsTail at hc
  split at hc
  · rcases List.mem_cons.mp hc with h | h
    · rw [h]; exact isDigit_digitByte _
    · rcases List.mem_cons.mp h with h | h
      · rw [h]; exact isDigit_digitByte _
      · exact ha c h
  · rcases List.mem_cons.mp hc with h | h
    · rw [h]; exact isDigit_digitByte _
    · exact ha c h

theorem formatBitsLoop_digits (fuel us : Nat) (a : List Byte) (ha : ∀ c ∈ a, isDigit c) :
    ∀ c ∈ formatBitsLoop fuel us a, isDigit c := by
  induction fuel generalizing us a with
  | zero => exact formatBitsTail_digits us a ha
  | succ f ih =>
    unfold formatBitsLoop
    split
    · apply ih
      intro c hc
      rcases List.mem_cons.mp hc with h | h
      · rw [h]; exact isDigit_digitByte _
      · rcases List.mem_cons.mp h with h | h
        · rw [h]; exact isDigit_digitByte _
        · exact ha c h
    · exact formatBitsTail_digits us a ha

theorem formatBitsTail_ne_nil (us : Nat) (a : List Byte) : formatBitsTail us a ≠ [] := by
  unfold formatBitsTail
  split <;> simp

theorem formatBitsLoop_ne_nil (fuel us : Nat) (a : List Byte) :
    formatBitsLoop fuel us a ≠ [] := by
  induction fuel generalizing us a with
  | zero => exact formatBitsTail_ne_nil us a
  | succ f ih =>
    unfold formatBitsLoop
    split
    · exact ih _ _
    · exact formatBitsTail_ne_nil us a

theorem decimalValue_formatBitsTail (us : Nat) (a : List Byte) (h : us < 100) :
    decimalValue 0 (formatBitsTail us a) = decimalValue us a := by
  unfold formatBitsTail
  split
  · rw [decimalValue_digitByte, decimalValue_digitByte]
    congr 1
    omega
  · rw [decimalValue_digitByte]
    congr 1
    omega

theorem decimalValue_formatBitsLoop (fuel us : Nat) (a : List Byte) (h : us ≤ fuel) :
    decimalValue 0 (formatBitsLoop fuel us a) = decimalValue us a := by
  induction fuel generalizing us a with
  | zero =>
    have h0 : us < 100 := by omega
    exact decimalValue_formatBitsTail us a h0
  | succ f ih =>
    unfold formatBitsLoop
    split
    · have hle : us / 100 ≤ f := by omega
      rw [ih _ _ hle, decimalValue_digitByte, decimalValue_digitByte]
      congr 1
      omega
    · exact decimalValue_formatBitsTail us a (by omega)

theorem length_formatBitsTail (us : Nat) (a : List Byte) :
    (formatBitsTail us a).length ≤ a.length + 2 := by
  unfold formatBitsTail
  split <;> simp

theorem length_formatBitsLoop (fuel us k : Nat) (a : List Byte) (h : us < 100 ^ (k + 1)) :
    (formatBitsLoop fuel us a).length ≤ a.length + 2 * (k + 1) := by
  induction fuel generalizing us a k with
  | zero =>
    have := length_formatBitsTail us a
    show (formatBitsTail us a).length ≤ _
    omega
  | succ f ih =>
    unfold formatBitsLoop
    split
    · rename_i hge
      cases k with
      | zero => simp at h; omega
      | succ k =>
        have hdiv : us / 100 < 100 ^ (k + 1) := by
          apply Nat.div_lt_of_lt_mul
          rw [pow_succ] at h
          omega
        have := ih (us / 100) k
          (digitByte (us % 100 / 10) :: digitByte (us % 100 % 10) :: a) hdiv
        simp only [List.length_cons] at this
        omega
    · have := length_formatBitsTail us a
      omega

theorem FormatUint_digits (i : Nat) : ∀ c ∈ FormatUint i, isDigit c := by
  unfold FormatUint
  split
  · unfold small
    split
    · intro c hc
      rw [List.mem_singleton.mp hc]
      exact isDigit_digitByte _
    · intro c hc
      rcases List.mem_cons.mp hc with h | h
      · rw [h]; exact isDigit_digitByte _
      · rw [List.mem_singleton.mp h]; exact isDigit_digitByte _
  · exact formatBitsLoop_digits i i [] (by intro c hc; cases hc)

theorem FormatUint_ne_nil (i : Nat) : FormatUint i ≠ [] := by
  unfold FormatUint
  split
  · unfold small
    split <;> simp
  · exact formatBitsLoop_ne_nil i i []

theorem decimalValue_FormatUint (i : Nat) : decimalValue 0 (FormatUint i) = i := by
  unfold FormatUint
  split
  · unfold small
    split
    · rw [decimalValue_digitByte]
      show 0 * 10 + i % 10 = i
      omega
    · rw [decimalValue_digitByte, decimalValue_digitByte]
      show (0 * 10 + i / 10 % 10) * 10 + i % 10 % 10 = i
      omega
  · show decimalValue 0 (formatBitsLoop i i []) = i
    rw [decimalValue_formatBitsLoop i i [] (Nat.le_refl i)]
    rfl

theorem length_FormatUint (i : Nat) (h : i < 2 ^ 64) : (FormatUint i).length ≤ 20 := by
  unfold FormatUint
  split
  · unfold small
    split <;> simp
  · have h1 : i < 100 ^ (9 + 1) := by
      have : (2 : Nat) ^ 64 ≤ 100 ^ (9 + 1) := by norm_num
      omega
    have := length_formatBitsLoop i i 9 [] h1
    simpa [formatBits] using this

/-- The text `FormatUint` writes parses back to the number. -/
theorem ParseUint_FormatUint (i : Nat) (h : i < 2 ^ 64) :
    ParseUint (FormatUint i) = (i, none) := by
  have hv : decimalValue 0 (FormatUint i) < 2 ^ 64 := by
    rw [decimalValue_FormatUint]; exact h
  rw [ParseUint_of_digits _ (FormatUint_ne_nil i) (FormatUint_digits i) hv,
    decimalValue_FormatUint]

/-! ## strings.TrimSpace -/

theorem isAsciiSpace_of_isDigit (c : Byte) (h : isDigit c) : isAsciiSpace c = false := by
  unfold isDigit at h
  unfold isAsciiSpace
  simp only [Bool.or_eq_false_iff, decide_eq_false_iff_not]
  omega

theorem trimSpaceStop_digit (L : TextLib) (c : Byte) (rest : List Byte) (h : isDigit c) :
    trimSpaceStop L (c :: rest) = (c :: rest).reverse := by
  have h1 : ¬ c.val ≥ 128 := by unfold isDigit at h; omega
  rw [trimSpaceStop, if_neg h1, isAsciiSpace_of_isDigit c h]
  simp

/-- The function `TrimSpace` leaves a string of digits as it is. -/
theorem TrimSpace_digits (L : TextLib) (s : List Byte) (hd : ∀ c ∈ s, isDigit c) :
    TrimSpace L s = s := by
  cases s with
  | nil => rfl
  | cons c rest =>
    have hc : isDigit c := hd c (List.mem_cons_self _ _)
    have h1 : ¬ c.val ≥ 128 := by unfold isDigit at hc; omega
    rw [TrimSpace, if_neg h1, isAsciiSpace_of_isDigit c hc]
    simp only [Bool.false_eq_true, if_false]
    cases hr : (c :: rest).reverse with
    | nil => simp at hr
    | cons x xs =>
      have hx : isDigit x := by
        apply hd
        have : x ∈ (c :: rest).reverse := by rw [hr]; exact List.mem_cons_self _ _
        exact List.mem_reverse.mp this
      rw [trimSpaceStop_digit L x xs hx, ← hr, List.reverse_reverse]

/-! ## The handlers, one request at a time -/

theorem httpError_fresh (e : Option errorString) (msg : List Byte) (code : Nat) :
    (httpError (ResponseWriter.fresh e) msg code).status = code := by
  cases e <;> rfl

theorem ServeHTTP_not_allowed (L : TextLib) (h : httpStringHandler) (w : ResponseWriter)
    (r : Request) (hg : r.Method ≠ "POST" ∨ r.Path ≠ "/counter") :
    h.ServeHTTP L w r = (httpError w (ascii "only POST /counter allowed") 405, h) := by
  unfold httpStringHandler.ServeHTTP
  rw [if_pos hg]

theorem ServeHTTP_too_large (L : TextLib) (h : httpStringHandler) (w : ResponseWriter)
    (body : List Byte) (hlen : body.length > 32) :
    h.ServeHTTP L w ⟨"POST", "/counter", body⟩ =
      (httpError w (ascii "http: request body too large") 400, h) := by
  unfold httpStringHandler.ServeHTTP
  rw [if_neg (by simp)]
  simp only [readAllMaxBytes, if_pos hlen]
  rfl

theorem ServeHTTP_parse_error (L : TextLib) (h : httpStringHandler) (w : ResponseWriter)
    (body : List Byte) (hlen : body.length ≤ 32) (v : Nat) (err : NumError)
    (hp : ParseUint body = (v, some err)) :
    h.ServeHTTP L w ⟨"POST", "/counter", body⟩ = (httpError w (err.Error L) 400, h) := by
  unfold httpStringHandler.ServeHTTP
  rw [if_neg (by simp)]
  have hl : ¬ body.length > 32 := by omega
  simp only [readAllMaxBytes, if_neg hl, hp]

theorem ServeHTTP_parsed (L : TextLib) (h : httpStringHandler) (w : ResponseWriter)
    (body : List Byte) (hlen : body.length ≤ 32) (v : Nat)
    (hp : ParseUint body = (v, none)) :
    h.ServeHTTP L w ⟨"POST", "/counter", body⟩ =
      match h.counter.Bump v with
      | ((_, some err), c) => (httpError w err.Error 500, ⟨c⟩)
      | ((result, none), c) =>
        match w.Write (FormatUint result) with
        | (w1, some err) => (httpError w1 err.Error 500, ⟨c⟩)
        | (w1, none) => (w1, ⟨c⟩) := by
  unfold httpStringHandler.ServeHTTP
  rw [if_neg (by simp)]
  have hl : ¬ body.length > 32 := by omega
  simp only [readAllMaxBytes, if_neg hl, hp]

theorem HandleFastHTTP_post_parse_error (L : TextLib) (h : httpStringHandler)
    (body : List Byte) (resp : FastResponse) (v : Nat) (err : NumError)
    (hp : ParseUint body = (v, some err)) :
    h.HandleFastHTTP L ⟨⟨"POST", "/counter", body⟩, resp⟩ =
      (⟨⟨"POST", "/counter", body⟩, ⟨400, err.Error L⟩⟩, h) := by
  unfold httpStringHandler.HandleFastHTTP
  rw [if_neg (by simp)]
  simp only [hp]
  rfl

theorem HandleFastHTTP_post_parsed (L : TextLib) (h : httpStringHandler)
    (body : List Byte) (resp : FastResponse) (v : Nat)
    (hp : ParseUint body = (v, none)) :
    h.HandleFastHTTP L ⟨⟨"POST", "/counter", body⟩, resp⟩ =
      match h.counter.Bump v with
      | ((_, some err), c) => (⟨⟨"POST", "/counter", body⟩, ⟨500, err.Error⟩⟩, ⟨c⟩)
      | ((result, none), c) =>
        (⟨⟨"POST", "/counter", body⟩, ⟨resp.statusCode, resp.body ++ FormatUint result⟩⟩, ⟨c⟩) := by
  unfold httpStringHandler.HandleFastHTTP
  rw [if_neg (by simp)]
  simp only [hp]
  rcases hb : h.counter.Bump v with ⟨⟨r, _ | e⟩, c⟩ <;> rfl

theorem ParseUint_error_cases (s : List Byte) (h : (ParseUint s).2 ≠ none) :
    ∃ v err, ParseUint s = (v, some err) := by
  rcases hp : ParseUint s with ⟨v, _ | err⟩
  · rw [hp] at h; exact absurd rfl h
  · exact ⟨v, err, rfl⟩

theorem ParseUint_ok_lt (s : List Byte) (a : Nat) (h : ParseUint s = (a, none)) :
    a < 2 ^ 64 := by
  have h2 : (ParseUint s).2 = none := by rw [h]
  obtain ⟨he, hd, hv⟩ := (ParseUint_eq_none_iff s).mp h2
  rw [ParseUint_of_digits s he hd hv] at h
  have : decimalValue 0 s = a := congrArg Prod.fst h
  omega

/-! ## Guards and input rejection -/

/-- C5: a request to `ServeHTTP` whose method is not POST or whose path is not
`/counter` is answered with status 405, whatever its body, and the handler
(so the counter's total) is unchanged. -/
theorem C5_serveHTTP_guard (L : TextLib) (h : httpStringHandler)
    (e : Option errorString) (r : Request)
    (hg : r.Method ≠ "POST" ∨ r.Path ≠ "/counter") :
    (h.ServeHTTP L (ResponseWriter.fresh e) r).1.status = 405 ∧
      (h.ServeHTTP L (ResponseWriter.fresh e) r).2 = h := by
  rw [ServeHTTP_not_allowed L h _ r hg]
  exact ⟨httpError_fresh e _ 405, rfl⟩

theorem C5_serveHTTP_guard_witness :
    ((⟨⟨7⟩⟩ : httpStringHandler).ServeHTTP ⟨id, id, id⟩ (ResponseWriter.fresh none)
        ⟨"GET", "/counter", ascii "5"⟩).1.status = 405 ∧
      ((⟨⟨7⟩⟩ : httpStringHandler).ServeHTTP ⟨id, id, id⟩ (ResponseWriter.fresh none)
        ⟨"GET", "/counter", ascii "5"⟩).2 = ⟨⟨7⟩⟩ :=
  C5_serveHTTP_guard ⟨id, id, id⟩ ⟨⟨7⟩⟩ none ⟨"GET", "/counter", ascii "5"⟩ (by decide)

/-- C6 fails on the code: `HandleFastHTTP` does not return after answering 405.
A GET to `/counter` with body `5` on a counter holding 0 ends with status 405
but the counter holds 5; the same GET with an empty body ends with status 400. -/
theorem C6_fasthttp_guard_falls_through (L : TextLib) :
    ((⟨⟨0⟩⟩ : httpStringHandler).HandleFastHTTP L
        (RequestCtx.init ⟨"GET", "/counter", ascii "5"⟩)).1.Response.statusCode = 405 ∧
      ((⟨⟨0⟩⟩ : httpStringHandler).HandleFastHTTP L
        (RequestCtx.init ⟨"GET", "/counter", ascii "5"⟩)).2.counter.counter = 5 ∧
      ((⟨⟨0⟩⟩ : httpStringHandler).HandleFastHTTP L
        (RequestCtx.init ⟨"GET", "/counter", []⟩)).1.Response.statusCode = 400 := by
  refine ⟨?_, ?_, ?_⟩ <;> rfl

/-- C7: a POST to `/counter` whose body fails `ParseUint` is answered with
status 400 by `ServeHTTP` and by `HandleFastHTTP`, and the handler (so the
counter's total) is unchanged; the failing bodies are exactly the empty one,
those with a byte that is not a decimal digit, and those denoting a number
above `2^64 - 1`. -/
theorem C7_malformed_body_rejected (L : TextLib) (h : httpStringHandler)
    (e : Option errorString) (body : List Byte) :
    ((ParseUint body).2 ≠ none ↔
        body = [] ∨ (∃ c ∈ body, ¬ isDigit c) ∨ decimalValue 0 body > 2 ^ 64 - 1) ∧
      ((ParseUint body).2 ≠ none →
        (h.ServeHTTP L (ResponseWriter.fresh e) ⟨"POST", "/counter", body⟩).1.status = 400 ∧
        (h.ServeHTTP L (ResponseWriter.fresh e) ⟨"POST", "/counter", body⟩).2 = h ∧
        (h.HandleFastHTTP L (RequestCtx.init ⟨"POST", "/counter", body⟩)).1.Response.statusCode
          = 400 ∧
        (h.HandleFastHTTP L (RequestCtx.init ⟨"POST", "/counter", body⟩)).2 = h) := by
  constructor
  · rw [Ne, ParseUint_eq_none_iff]
    constructor
    · intro hn
      by_cases h1 : body = []
      · exact Or.inl h1
      · by_cases h2 : ∀ c ∈ body, isDigit c
        · right; right
          by_contra h3
          exact hn ⟨h1, h2, by omega⟩
        · right; left
          by_contra h3
          apply h2
          intro c hc
          by_contra hcd
          exact h3 ⟨c, hc, hcd⟩
    · rintro (h1 | ⟨c, hc, hcd⟩ | h3) ⟨g1, g2, g3⟩
      · exact g1 h1
      · exact hcd (g2 c hc)
      · omega
  · intro hfail
    obtain ⟨v, err, hp⟩ := ParseUint_error_cases body hfail
    refine ⟨?_, ?_, ?_, ?_⟩
    · by_cases hlen : body.length ≤ 32
      · rw [ServeHTTP_parse_error L h _ body hlen v err hp]
        exact httpError_fresh e _ 400
      · rw [ServeHTTP_too_large L h _ body (by omega)]
        exact httpError_fresh e _ 400
    · by_cases hlen : body.length ≤ 32
      · rw [ServeHTTP_parse_error L h _ body hlen v err hp]
      · rw [ServeHTTP_too_large L h _ body (by omega)]
    · rw [RequestCtx.init, HandleFastHTTP_post_parse_error L h body _ v err hp]
    · rw [RequestCtx.init, HandleFastHTTP_post_parse_error L h body _ v err hp]

theorem C7_malformed_body_rejected_witness :
    ((⟨⟨7⟩⟩ : httpStringHandler).ServeHTTP ⟨id, id, id⟩ (ResponseWriter.fresh none)
        ⟨"POST", "/counter", ascii "+1"⟩).1.status = 400 ∧
      ((⟨⟨7⟩⟩ : httpStringHandler).ServeHTTP ⟨id, id, id⟩ (ResponseWriter.fresh none)
        ⟨"POST", "/counter", ascii "+1"⟩).2 = ⟨⟨7⟩⟩ ∧
      ((⟨⟨7⟩⟩ : httpStringHandler).HandleFastHTTP ⟨id, id, id⟩
        (RequestCtx.init ⟨"POST", "/counter", ascii "+1"⟩)).1.Response.statusCode = 400 ∧
      ((⟨⟨7⟩⟩ : httpStringHandler).HandleFastHTTP ⟨id, id, id⟩
        (RequestCtx.init ⟨"POST", "/counter", ascii "+1"⟩)).2 = ⟨⟨7⟩⟩ :=
  (C7_malformed_body_rejected ⟨id, id, id⟩ ⟨⟨7⟩⟩ none (ascii "+1")).2 (by decide)

/-- C8: a POST to `/counter` handled by `ServeHTTP` with a body longer than 32
bytes is answered with status 400 and the body-too-large message, whatever
`ParseUint` would make of the body, and the handler is unchanged; a body of at
most 32 bytes passes the cap whole, and is answered 400 only when `ParseUint`
fails on it. -/
theorem C8_cap_enforced (L : TextLib) (h : httpStringHandler)
    (e : Option errorString) (body : List Byte) :
    (body.length > 32 →
        (h.ServeHTTP L (ResponseWriter.fresh e) ⟨"POST", "/counter", body⟩).1 =
          httpError (ResponseWriter.fresh e) (ascii "http: request body too large") 400 ∧
        (h.ServeHTTP L (ResponseWriter.fresh e) ⟨"POST", "/counter", body⟩).1.status = 400 ∧
        (h.ServeHTTP L (ResponseWriter.fresh e) ⟨"POST", "/counter", body⟩).2 = h) ∧
      (body.length ≤ 32 →
        readAllMaxBytes 32 body = (body, none) ∧
        ((h.ServeHTTP L (ResponseWriter.fresh e) ⟨"POST", "/counter", body⟩).1.status = 400 ↔
          (ParseUint body).2 ≠ none)) := by
  constructor
  · intro hlen
    rw [ServeHTTP_too_large L h _ body hlen]
    exact ⟨rfl, httpError_fresh e _ 400, rfl⟩
  · intro hlen
    constructor
    · have hl : ¬ body.length > 32 := by omega
      simp only [readAllMaxBytes, if_neg hl]
    · rcases hp : ParseUint body with ⟨v, _ | err⟩
      · rw [ServeHTTP_parsed L h _ body hlen v hp]
        rcases hb : h.counter.Bump v with ⟨⟨r, _ | oe⟩, c⟩
        · cases e <;> simp [ResponseWriter.Write, ResponseWriter.WriteHeader,
            ResponseWriter.fresh, httpError]
        · simp [httpError_fresh]
      · rw [ServeHTTP_parse_error L h _ body hlen v err hp]
        simp [httpError_fresh]

theorem C8_cap_enforced_witness :
    ((ascii "000000000000000000000000000000001").length > 32 ∧
        ParseUint (ascii "000000000000000000000000000000001") = (1, none)) ∧
      (((⟨⟨7⟩⟩ : httpStringHandler).ServeHTTP ⟨id, id, id⟩ (ResponseWriter.fresh none)
          ⟨"POST", "/counter", ascii "000000000000000000000000000000001"⟩).1 =
            httpError (ResponseWriter.fresh none) (ascii "http: request body too large") 400 ∧
        ((⟨⟨7⟩⟩ : httpStringHandler).ServeHTTP ⟨id, id, id⟩ (ResponseWriter.fresh none)
          ⟨"POST", "/counter", ascii "000000000000000000000000000000001"⟩).1.status = 400 ∧
        ((⟨⟨7⟩⟩ : httpStringHandler).ServeHTTP ⟨id, id, id⟩ (ResponseWriter.fresh none)
          ⟨"POST", "/counter", ascii "000000000000000000000000000000001"⟩).2 = ⟨⟨7⟩⟩) ∧
      (readAllMaxBytes 32 (ascii "00000000000000000000000000000001") =
          (ascii "00000000000000000000000000000001", none) ∧
        (((⟨⟨7⟩⟩ : httpStringHandler).ServeHTTP ⟨id, id, id⟩ (ResponseWriter.fresh none)
          ⟨"POST", "/counter", ascii "00000000000000000000000000000001"⟩).1.status = 400 ↔
          (ParseUint (ascii "00000000000000000000000000000001")).2 ≠ none)) :=
  ⟨by decide,
    (C8_cap_enforced ⟨id, id, id⟩ ⟨⟨7⟩⟩ none
      (ascii "000000000000000000000000000000001")).1 (by decide),
    (C8_cap_enforced ⟨id, id, id⟩ ⟨⟨7⟩⟩ none
      (ascii "00000000000000000000000000000001")).2 (by decide)⟩

/-! ## Well-formed bump requests -/

theorem Write_fresh_none (p : List Byte) :
    (ResponseWriter.fresh none).Write p = (⟨none, true, 200, p⟩, none) := rfl

theorem Write_fresh_status (e : Option errorString) (p : List Byte) :
    ((ResponseWriter.fresh e).Write p).1.status = 200 ∧
      ∀ msg code, (httpError ((ResponseWriter.fresh e).Write p).1 msg code).status = 200 := by
  cases e <;> exact ⟨rfl, fun _ _ => rfl⟩

theorem ServeHTTP_ok (L : TextLib) (t a : Nat) (body : List Byte)
    (hlen : body.length ≤ 32) (hp : ParseUint body = (a, none)) (h : t + a < 2 ^ 64) :
    (⟨⟨t⟩⟩ : httpStringHandler).ServeHTTP L (ResponseWriter.fresh none)
        ⟨"POST", "/counter", body⟩ =
      (⟨none, true, 200, FormatUint (t + a)⟩, ⟨⟨t + a⟩⟩) := by
  rw [ServeHTTP_parsed L _ _ body hlen a hp]
  show (match Counter.Bump ⟨t⟩ a with
    | ((_, some err), c) => _
    | ((result, none), c) => _) = _
  rw [Counter.Bump_of_lt t a h]
  rfl

theorem HandleFastHTTP_ok (L : TextLib) (t a : Nat) (body : List Byte)
    (hp : ParseUint body = (a, none)) (h : t + a < 2 ^ 64) :
    (⟨⟨t⟩⟩ : httpStringHandler).HandleFastHTTP L (RequestCtx.init ⟨"POST", "/counter", body⟩) =
      (⟨⟨"POST", "/counter", body⟩, ⟨200, FormatUint (t + a)⟩⟩, ⟨⟨t + a⟩⟩) := by
  rw [RequestCtx.init, HandleFastHTTP_post_parsed L _ body _ a hp]
  show (match Counter.Bump ⟨t⟩ a with
    | ((_, some err), c) => _
    | ((result, none), c) => _) = _
  rw [Counter.Bump_of_lt t a h]
  rfl

theorem GRPCServer.Bump_ok (t a : Nat) (h : t + a < 2 ^ 64) :
    GRPCServer.Bump ⟨⟨t⟩⟩ ⟨a⟩ = ((some ⟨t + a⟩, none), ⟨⟨t + a⟩⟩) := by
  show (match Counter.Bump ⟨t⟩ a with
    | ((_, some err), c) => _
    | ((result, none), c) => _) = _
  rw [Counter.Bump_of_lt t a h]

theorem GRPCServer.Bump_overflow (t a : Nat) (ht : t < 2 ^ 64) (ha : a < 2 ^ 64)
    (h : 2 ^ 64 ≤ t + a) :
    GRPCServer.Bump ⟨⟨t⟩⟩ ⟨a⟩ = ((none, some OverflowError), ⟨⟨t + a - 2 ^ 64⟩⟩) := by
  show (match Counter.Bump ⟨t⟩ a with
    | ((_, some err), c) => _
    | ((result, none), c) => _) = _
  rw [Counter.Bump_of_ge t a ht ha h]

theorem ServeHTTP_fits (L : TextLib) (w : ResponseWriter) (t a : Nat) (body : List Byte)
    (hlen : body.length ≤ 32) (hp : ParseUint body = (a, none)) (h : t + a < 2 ^ 64) :
    (⟨⟨t⟩⟩ : httpStringHandler).ServeHTTP L w ⟨"POST", "/counter", body⟩ =
      match w.Write (FormatUint (t + a)) with
      | (w1, some err) => (httpError w1 err.Error 500, ⟨⟨t + a⟩⟩)
      | (w1, none) => (w1, ⟨⟨t + a⟩⟩) := by
  rw [ServeHTTP_parsed L _ _ body hlen a hp]
  show (match Counter.Bump ⟨t⟩ a with
    | ((_, some err), c) => _
    | ((result, none), c) => _) = _
  rw [Counter.Bump_of_lt t a h]

theorem ServeHTTP_overflow (L : TextLib) (w : ResponseWriter) (t a : Nat) (body : List Byte)
    (hlen : body.length ≤ 32) (hp : ParseUint body = (a, none))
    (ht : t < 2 ^ 64) (ha : a < 2 ^ 64) (h : 2 ^ 64 ≤ t + a) :
    (⟨⟨t⟩⟩ : httpStringHandler).ServeHTTP L w ⟨"POST", "/counter", body⟩ =
      (httpError w OverflowError.Error 500, ⟨⟨t + a - 2 ^ 64⟩⟩) := by
  rw [ServeHTTP_parsed L _ _ body hlen a hp]
  show (match Counter.Bump ⟨t⟩ a with
    | ((_, some err), c) => _
    | ((result, none), c) => _) = _
  rw [Counter.Bump_of_ge t a ht ha h]

theorem HandleFastHTTP_overflow (L : TextLib) (t a : Nat) (body : List Byte)
    (hp : ParseUint body = (a, none))
    (ht : t < 2 ^ 64) (ha : a < 2 ^ 64) (h : 2 ^ 64 ≤ t + a) :
    (⟨⟨t⟩⟩ : httpStringHandler).HandleFastHTTP L (RequestCtx.init ⟨"POST", "/counter", body⟩) =
      (⟨⟨"POST", "/counter", body⟩, ⟨500, OverflowError.Error⟩⟩, ⟨⟨t + a - 2 ^ 64⟩⟩) := by
  rw [RequestCtx.init, HandleFastHTTP_post_parsed L _ body _ a hp]
  show (match Counter.Bump ⟨t⟩ a with
    | ((_, some err), c) => _
    | ((result, none), c) => _) = _
  rw [Counter.Bump_of_ge t a ht ha h]

/-- C9: for a counter holding `t` and a bump request for `a` that passes the
decoder (a POST to `/counter` whose body, of at most 32 bytes, parses to `a`;
a `BumpRequest` with `By = a`), `ServeHTTP` and `HandleFastHTTP` answer 500
exactly when `t + a > 2^64 - 1`, `GRPCServer.Bump` returns an error exactly
then, and that result is a nil reply with the error whose message is
`overflow`. -/
theorem C9_overflow_is_server_fault (L : TextLib) (e : Option errorString)
    (t a : Nat) (body : List Byte) (ht : t < 2 ^ 64)
    (hlen : body.length ≤ 32) (hp : ParseUint body = (a, none)) :
    (((⟨⟨t⟩⟩ : httpStringHandler).ServeHTTP L (ResponseWriter.fresh e)
        ⟨"POST", "/counter", body⟩).1.status = 500 ↔ t + a > 2 ^ 64 - 1) ∧
      (((⟨⟨t⟩⟩ : httpStringHandler).HandleFastHTTP L
        (RequestCtx.init ⟨"POST", "/counter", body⟩)).1.Response.statusCode = 500 ↔
          t + a > 2 ^ 64 - 1) ∧
      ((GRPCServer.Bump ⟨⟨t⟩⟩ ⟨a⟩).1.2 ≠ none ↔ t + a > 2 ^ 64 - 1) ∧
      (t + a > 2 ^ 64 - 1 →
        (GRPCServer.Bump ⟨⟨t⟩⟩ ⟨a⟩).1 = (none, some OverflowError) ∧
          OverflowError.Error = ascii "overflow") := by
  have ha : a < 2 ^ 64 := ParseUint_ok_lt body a hp
  by_cases h : t + a < 2 ^ 64
  · have hno : ¬ t + a > 2 ^ 64 - 1 := by omega
    refine ⟨?_, ?_, ?_, ?_⟩
    · rw [ServeHTTP_fits L _ t a body hlen hp h]
      have hw := Write_fresh_status e (FormatUint (t + a))
      constructor
      · intro h5
        exfalso
        rcases hwr : (ResponseWriter.fresh e).Write (FormatUint (t + a)) with ⟨w1, _ | we⟩
        · rw [hwr] at hw
          simp only [hwr] at h5
          rw [hw.1] at h5
          exact absurd h5 (by decide)
        · rw [hwr] at hw
          simp only [hwr] at h5
          rw [hw.2] at h5
          exact absurd h5 (by decide)
      · intro h5; exact absurd h5 hno
    · rw [HandleFastHTTP_ok L t a body hp h]
      constructor
      · intro h5
        have h6 : (200 : Nat) = 500 := h5
        exact absurd h6 (by decide)
      · intro h5; exact absurd h5 hno
    · rw [GRPCServer.Bump_ok t a h]
      constructor
      · intro h5; exact absurd rfl h5
      · intro h5; exact absurd h5 hno
    · intro h5; exact absurd h5 hno
  · have hge : 2 ^ 64 ≤ t + a := by omega
    have hyes : t + a > 2 ^ 64 - 1 := by omega
    refine ⟨?_, ?_, ?_, ?_⟩
    · rw [ServeHTTP_overflow L _ t a body hlen hp ht ha hge]
      constructor
      · intro _; exact hyes
      · intro _; exact httpError_fresh e _ 500
    · rw [HandleFastHTTP_overflow L t a body hp ht ha hge]
      constructor
      · intro _; exact hyes
      · intro _; rfl
    · rw [GRPCServer.Bump_overflow t a ht ha hge]
      constructor
      · intro _; exact hyes
      · intro _ h5; cases h5
    · intro _
      rw [GRPCServer.Bump_overflow t a ht ha hge]
      exact ⟨rfl, rfl⟩

theorem C9_overflow_is_server_fault_witness :
    (((⟨⟨2 ^ 64 - 1⟩⟩ : httpStringHandler).ServeHTTP ⟨id, id, id⟩ (ResponseWriter.fresh none)
        ⟨"POST", "/counter", ascii "1"⟩).1.status = 500 ↔ 2 ^ 64 - 1 + 1 > 2 ^ 64 - 1) ∧
      (((⟨⟨2 ^ 64 - 1⟩⟩ : httpStringHandler).HandleFastHTTP ⟨id, id, id⟩
        (RequestCtx.init ⟨"POST", "/counter", ascii "1"⟩)).1.Response.statusCode = 500 ↔
          2 ^ 64 - 1 + 1 > 2 ^ 64 - 1) ∧
      ((GRPCServer.Bump ⟨⟨2 ^ 64 - 1⟩⟩ ⟨1⟩).1.2 ≠ none ↔ 2 ^ 64 - 1 + 1 > 2 ^ 64 - 1) ∧
      (2 ^ 64 - 1 + 1 > 2 ^ 64 - 1 →
        (GRPCServer.Bump ⟨⟨2 ^ 64 - 1⟩⟩ ⟨1⟩).1 = (none, some OverflowError) ∧
          OverflowError.Error = ascii "overflow") :=
  C9_overflow_is_server_fault ⟨id, id, id⟩ none (2 ^ 64 - 1) 1 (ascii "1")
    (by decide) (by decide) (by decide)

/-! ## The text codec end to end, and sequences of bumps -/

theorem decodeResponse_FormatUint (L : TextLib) (v : Nat) (h : v < 2 ^ 64) :
    decodeResponse L 200 (FormatUint v) = (v, none) := by
  unfold decodeResponse
  rw [if_neg (by decide), TrimSpace_digits L _ (FormatUint_digits v), ParseUint_FormatUint v h]

theorem length_FormatUint_le_cap (a : Nat) (h : a < 2 ^ 64) : (FormatUint a).length ≤ 32 := by
  have := length_FormatUint a h
  omega

theorem bumpCounterHTTP_ok (L : TextLib) (t a : Nat) (h : t + a < 2 ^ 64) :
    bumpCounterHTTP L ⟨⟨t⟩⟩ a = ((t + a, none), ⟨⟨t + a⟩⟩) := by
  have ha : a < 2 ^ 64 := by omega
  unfold bumpCounterHTTP bumpRequest
  rw [ServeHTTP_ok L t a _ (length_FormatUint_le_cap a ha) (ParseUint_FormatUint a ha) h]
  show (decodeResponse L 200 (FormatUint (t + a)), _) = _
  rw [decodeResponse_FormatUint L _ h]

theorem bumpCounterFastHTTP_ok (L : TextLib) (t a : Nat) (h : t + a < 2 ^ 64) :
    bumpCounterFastHTTP L ⟨⟨t⟩⟩ a = ((t + a, none), ⟨⟨t + a⟩⟩) := by
  have ha : a < 2 ^ 64 := by omega
  unfold bumpCounterFastHTTP bumpRequest
  rw [HandleFastHTTP_ok L t a _ (ParseUint_FormatUint a ha) h]
  show (decodeResponse L 200 (FormatUint (t + a)), _) = _
  rw [decodeResponse_FormatUint L _ h]

theorem bumpCounterGRPC_ok (t a : Nat) (h : t + a < 2 ^ 64) :
    bumpCounterGRPC ⟨⟨t⟩⟩ a = ((t + a, none), ⟨⟨t + a⟩⟩) := by
  unfold bumpCounterGRPC
  rw [GRPCServer.Bump_ok t a h]

/-- Calls that each return `out` of the new total and leave the server at the
new total produce, in a row, `out` of the running totals. -/
theorem bumpAll_eq_runningTotals {σ ρ : Type} (call : σ → Nat → ρ × σ) (st : Nat → σ)
    (out : Nat → ρ)
    (hstep : ∀ t a, t + a < 2 ^ 64 → call (st t) a = (out (t + a), st (t + a)))
    (amounts : List Nat) (t : Nat) (h : t + amounts.sum < 2 ^ 64) :
    bumpAll call (st t) amounts = (runningTotals t amounts).map out := by
  induction amounts generalizing t with
  | nil => rfl
  | cons a rest ih =>
    rw [List.sum_cons] at h
    have h1 : t + a < 2 ^ 64 := by omega
    have h2 : t + a + rest.sum < 2 ^ 64 := by omega
    show (call (st t) a).1 :: bumpAll call (call (st t) a).2 rest =
      out (t + a) :: (runningTotals (t + a) rest).map out
    rw [hstep t a h1]
    show out (t + a) :: bumpAll call (st (t + a)) rest = _
    rw [ih (t + a) h2]

/-- C10: when `t + a ≤ 2^64 - 1`, the body the client builds for `a` is at
most 32 bytes, passes the cap and is parsed by the handler to exactly `a`;
`ServeHTTP` answers with status 200 and the decimal ASCII text of `t + a`, and
leaves the counter at `t + a`; the client's decoding of that answer (trim,
then parse) returns `t + a` with no error. -/
theorem C10_text_codec_round_trip (L : TextLib) (t a : Nat) (h : t + a ≤ 2 ^ 64 - 1) :
    (FormatUint a).length ≤ 32 ∧
      readAllMaxBytes 32 (bumpRequest a).Body = (FormatUint a, none) ∧
      ParseUint (FormatUint a) = (a, none) ∧
      ((⟨⟨t⟩⟩ : httpStringHandler).ServeHTTP L (ResponseWriter.fresh none)
        (bumpRequest a)).1.status = 200 ∧
      ((⟨⟨t⟩⟩ : httpStringHandler).ServeHTTP L (ResponseWriter.fresh none)
        (bumpRequest a)).1.body = FormatUint (t + a) ∧
      ((∀ c ∈ FormatUint (t + a), isDigit c) ∧ decimalValue 0 (FormatUint (t + a)) = t + a) ∧
      ((⟨⟨t⟩⟩ : httpStringHandler).ServeHTTP L (ResponseWriter.fresh none)
        (bumpRequest a)).2 = ⟨⟨t + a⟩⟩ ∧
      decodeResponse L
        ((⟨⟨t⟩⟩ : httpStringHandler).ServeHTTP L (ResponseWriter.fresh none)
          (bumpRequest a)).1.status
        ((⟨⟨t⟩⟩ : httpStringHandler).ServeHTTP L (ResponseWriter.fresh none)
          (bumpRequest a)).1.body = (t + a, none) ∧
      (bumpCounterHTTP L ⟨⟨t⟩⟩ a).1 = (t + a, none) := by
  have hlt : t + a < 2 ^ 64 := by omega
  have ha : a < 2 ^ 64 := by omega
  have hlen := length_FormatUint_le_cap a ha
  have hp := ParseUint_FormatUint a ha
  have hs : (⟨⟨t⟩⟩ : httpStringHandler).ServeHTTP L (ResponseWriter.fresh none)
      (bumpRequest a) = (⟨none, true, 200, FormatUint (t + a)⟩, ⟨⟨t + a⟩⟩) :=
    ServeHTTP_ok L t a _ hlen hp hlt
  rw [hs, bumpCounterHTTP_ok L t a hlt]
  refine ⟨hlen, ?_, hp, rfl, rfl, ⟨FormatUint_digits _, decimalValue_FormatUint _⟩, rfl, ?_, rfl⟩
  · have hl : ¬ (FormatUint a).length > 32 := by omega
    show readAllMaxBytes 32 (FormatUint a) = _
    simp only [readAllMaxBytes, if_neg hl]
  · exact decodeResponse_FormatUint L _ hlt

theorem C10_text_codec_round_trip_witness :
    (FormatUint 12345).length ≤ 32 ∧
      readAllMaxBytes 32 (bumpRequest 12345).Body = (FormatUint 12345, none) ∧
      ParseUint (FormatUint 12345) = (12345, none) ∧
      ((⟨⟨100⟩⟩ : httpStringHandler).ServeHTTP ⟨id, id, id⟩ (ResponseWriter.fresh none)
        (bumpRequest 12345)).1.status = 200 ∧
      ((⟨⟨100⟩⟩ : httpStringHandler).ServeHTTP ⟨id, id, id⟩ (ResponseWriter.fresh none)
        (bumpRequest 12345)).1.body = FormatUint (100 + 12345) ∧
      ((∀ c ∈ FormatUint (100 + 12345), isDigit c) ∧
        decimalValue 0 (FormatUint (100 + 12345)) = 100 + 12345) ∧
      ((⟨⟨100⟩⟩ : httpStringHandler).ServeHTTP ⟨id, id, id⟩ (ResponseWriter.fresh none)
        (bumpRequest 12345)).2 = ⟨⟨100 + 12345⟩⟩ ∧
      decodeResponse ⟨id, id, id⟩
        ((⟨⟨100⟩⟩ : httpStringHandler).ServeHTTP ⟨id, id, id⟩ (ResponseWriter.fresh none)
          (bumpRequest 12345)).1.status
        ((⟨⟨100⟩⟩ : httpStringHandler).ServeHTTP ⟨id, id, id⟩ (ResponseWriter.fresh none)
          (bumpRequest 12345)).1.body = (100 + 12345, none) ∧
      (bumpCounterHTTP ⟨id, id, id⟩ ⟨⟨100⟩⟩ 12345).1 = (100 + 12345, none) :=
  C10_text_codec_round_trip ⟨id, id, id⟩ 100 12345 (by decide)

theorem serveBump_ok (L : TextLib) (t a : Nat) (h : t + a < 2 ^ 64) :
    serveBump L ⟨⟨t⟩⟩ a = ((200, FormatUint (t + a)), ⟨⟨t + a⟩⟩) := by
  have ha : a < 2 ^ 64 := by omega
  unfold serveBump bumpRequest
  rw [ServeHTTP_ok L t a _ (length_FormatUint_le_cap a ha) (ParseUint_FormatUint a ha) h]

theorem fastBump_ok (L : TextLib) (t a : Nat) (h : t + a < 2 ^ 64) :
    fastBump L ⟨⟨t⟩⟩ a = ((200, FormatUint (t + a)), ⟨⟨t + a⟩⟩) := by
  have ha : a < 2 ^ 64 := by omega
  unfold fastBump bumpRequest
  rw [HandleFastHTTP_ok L t a _ (ParseUint_FormatUint a ha) h]

/-- C4: for amounts whose sum is at most `2^64 - 1`, sent one after the other
as the client's bump requests to a fresh handler through `ServeHTTP`, to a
fresh handler through `HandleFastHTTP` and to a fresh `GRPCServer` through
`Bump`, every answer is a success carrying the running total (status 200 with
its decimal text, or a reply with `Counter` set to it), and the totals the
client decodes are the running totals `a₁, a₁ + a₂, …` on all three. -/
theorem C4_transport_equivalence (L : TextLib) (amounts : List Nat)
    (h : amounts.sum ≤ 2 ^ 64 - 1) :
    bumpAll (serveBump L) NewHTTPStringHandler amounts =
        (runningTotals 0 amounts).map (fun v => (200, FormatUint v)) ∧
      bumpAll (fastBump L) NewHTTPStringHandler amounts =
        (runningTotals 0 amounts).map (fun v => (200, FormatUint v)) ∧
      bumpAll grpcBump NewGRPCServer amounts =
        (runningTotals 0 amounts).map (fun v => (some ⟨v⟩, none)) ∧
      bumpAll (bumpCounterHTTP L) NewHTTPStringHandler amounts =
        (runningTotals 0 amounts).map (fun v => (v, none)) ∧
      bumpAll (bumpCounterFastHTTP L) NewHTTPStringHandler amounts =
        (runningTotals 0 amounts).map (fun v => (v, none)) ∧
      bumpAll bumpCounterGRPC NewGRPCServer amounts =
        (runningTotals 0 amounts).map (fun v => (v, none)) := by
  have h0 : 0 + amounts.sum < 2 ^ 64 := by omega
  refine ⟨?_, ?_, ?_, ?_, ?_, ?_⟩
  · exact bumpAll_eq_runningTotals (serveBump L) (fun t => ⟨⟨t⟩⟩) _
      (fun t a ht => serveBump_ok L t a ht) amounts 0 h0
  · exact bumpAll_eq_runningTotals (fastBump L) (fun t => ⟨⟨t⟩⟩) _
      (fun t a ht => fastBump_ok L t a ht) amounts 0 h0
  · exact bumpAll_eq_runningTotals grpcBump (fun t => ⟨⟨t⟩⟩)
      (fun v => ((some ⟨v⟩ : Option BumpReply), (none : Option errorString)))
      (fun t a ht => GRPCServer.Bump_ok t a ht) amounts 0 h0
  · exact bumpAll_eq_runningTotals (bumpCounterHTTP L) (fun t => ⟨⟨t⟩⟩) _
      (fun t a ht => bumpCounterHTTP_ok L t a ht) amounts 0 h0
  · exact bumpAll_eq_runningTotals (bumpCounterFastHTTP L) (fun t => ⟨⟨t⟩⟩) _
      (fun t a ht => bumpCounterFastHTTP_ok L t a ht) amounts 0 h0
  · exact bumpAll_eq_runningTotals bumpCounterGRPC (fun t => ⟨⟨t⟩⟩) _
      (fun t a ht => bumpCounterGRPC_ok t a ht) amounts 0 h0

theorem C4_transport_equivalence_witness :
    runningTotals 0 (List.replicate 10 1) = [1, 2, 3, 4, 5, 6, 7, 8, 9, 10] ∧
      (bumpAll (serveBump ⟨id, id, id⟩) NewHTTPStringHandler (List.replicate 10 1) =
        (runningTotals 0 (List.replicate 10 1)).map (fun v => (200, FormatUint v)) ∧
      bumpAll (fastBump ⟨id, id, id⟩) NewHTTPStringHandler (List.replicate 10 1) =
        (runningTotals 0 (List.replicate 10 1)).map (fun v => (200, FormatUint v)) ∧
      bumpAll grpcBump NewGRPCServer (List.replicate 10 1) =
        (runningTotals 0 (List.replicate 10 1)).map (fun v => (some ⟨v⟩, none)) ∧
      bumpAll (bumpCounterHTTP ⟨id, id, id⟩) NewHTTPStringHandler (List.replicate 10 1) =
        (runningTotals 0 (List.replicate 10 1)).map (fun v => (v, none)) ∧
      bumpAll (bumpCounterFastHTTP ⟨id, id, id⟩) NewHTTPStringHandler (List.replicate 10 1) =
        (runningTotals 0 (List.replicate 10 1)).map (fun v => (v, none)) ∧
      bumpAll bumpCounterGRPC NewGRPCServer (List.replicate 10 1) =
        (runningTotals 0 (List.replicate 10 1)).map (fun v => (v, none))) :=
  ⟨by decide, C4_transport_equivalence ⟨id, id, id⟩ (List.replicate 10 1) (by decide)⟩

/-! ## After an overflow -/

/-- C11: for unsigned 64-bit `t` and `a` with `t + a > 2^64 - 1`, `Bump(a)`
returns `OverflowError` and leaves the counter at the wrapped value
`(t + a) mod 2^64`, which is below both `t` and `a` and so is not `t`; a
following `Bump(b)` with `(t + a) mod 2^64 + b ≤ 2^64 - 1` returns that sum
with no error and stores it. -/
theorem C11_no_rollback_on_overflow (t a : Nat) (ht : t < 2 ^ 64) (ha : a < 2 ^ 64)
    (hov : t + a > 2 ^ 64 - 1) :
    (Counter.Bump ⟨t⟩ a).1 = (0, some OverflowError) ∧
      (Counter.Bump ⟨t⟩ a).2.counter = (t + a) % 2 ^ 64 ∧
      (t + a) % 2 ^ 64 < t ∧ (t + a) % 2 ^ 64 < a ∧
      (Counter.Bump ⟨t⟩ a).2.counter ≠ t ∧
      ∀ b, (t + a) % 2 ^ 64 + b ≤ 2 ^ 64 - 1 →
        (Counter.Bump (Counter.Bump ⟨t⟩ a).2 b).1 = ((t + a) % 2 ^ 64 + b, none) ∧
          (Counter.Bump (Counter.Bump ⟨t⟩ a).2 b).2.counter = (t + a) % 2 ^ 64 + b := by
  have hge : 2 ^ 64 ≤ t + a := by omega
  have hm : (t + a) % 2 ^ 64 = t + a - 2 ^ 64 := by omega
  rw [Counter.Bump_of_ge t a ht ha hge, hm]
  refine ⟨rfl, rfl, by omega, by omega, ?_, ?_⟩
  · show t + a - 2 ^ 64 ≠ t
    omega
  · intro b hb
    have hlt : t + a - 2 ^ 64 + b < 2 ^ 64 := by omega
    show (Counter.Bump ⟨t + a - 2 ^ 64⟩ b).1 = _ ∧ (Counter.Bump ⟨t + a - 2 ^ 64⟩ b).2.counter = _
    rw [Counter.Bump_of_lt _ b hlt]
    exact ⟨rfl, rfl⟩

theorem C11_no_rollback_on_overflow_witness :
    ((Counter.Bump ⟨2 ^ 64 - 1⟩ 2).1 = (0, some OverflowError) ∧
      (Counter.Bump ⟨2 ^ 64 - 1⟩ 2).2.counter = (2 ^ 64 - 1 + 2) % 2 ^ 64 ∧
      (2 ^ 64 - 1 + 2) % 2 ^ 64 < 2 ^ 64 - 1 ∧ (2 ^ 64 - 1 + 2) % 2 ^ 64 < 2 ∧
      (Counter.Bump ⟨2 ^ 64 - 1⟩ 2).2.counter ≠ 2 ^ 64 - 1) ∧
      ((Counter.Bump (Counter.Bump ⟨2 ^ 64 - 1⟩ 2).2 5).1 =
          ((2 ^ 64 - 1 + 2) % 2 ^ 64 + 5, none) ∧
        (Counter.Bump (Counter.Bump ⟨2 ^ 64 - 1⟩ 2).2 5).2.counter =
          (2 ^ 64 - 1 + 2) % 2 ^ 64 + 5) ∧
      (2 ^ 64 - 1 + 2) % 2 ^ 64 + 5 = 6 :=
  have h := C11_no_rollback_on_overflow (2 ^ 64 - 1) 2 (by decide) (by decide) (by decide)
  ⟨⟨h.1, h.2.1, h.2.2.1, h.2.2.2.1, h.2.2.2.2.1⟩, h.2.2.2.2.2 5 (by decide), by decide⟩

end Saga
